import Mathlib

/-!
Verification development for the DanceOnDaGo choreography sequencing engine
(`backend/nn/data_analyzer.py`, `backend/nn/keypoint_data_loader.py`) and the
real-time pose scorer (`backend/nn/scoring/real_time_pose_scorer.py`).

Modelling conventions:
* Python floats are modelled as exact rationals (`ℚ`); IEEE `NaN` coordinates
  in keypoint data are modelled as `Option ℚ` with `none` standing for `NaN`,
  and a distance of `float('inf')` is modelled as `none : Option ℚ`.
* Clip files are identified by natural numbers instead of filename strings;
  a clip store is a function `ClipId → Option (List KFrame)` mirroring
  `KeypointDataLoader.load_keypoint_file`, which returns `None` on any
  read/parse failure instead of raising.  Keypoint arrays are modelled in the
  standard `(frames, joints, coords)` layout (the 4-D `(cameras, …)` variant
  of the source collapses to camera 0, i.e. to the same frame list).
* `random.choice` / `random.randint` draw from an explicit stream of naturals
  (`Rng`), consumed left to right; a draw `r` on a pool of size `n` selects
  index `r % n`.  `random.choice` on an empty pool raises in Python, which
  aborts the whole sequencing run; this is modelled by an `Option` result.
* Irrational collaborator computations of the scorer (euclidean distance,
  `np.exp`, `np.std`/`np.corrcoef` inside the timing and rhythm sub-scores)
  are abstracted as explicit function parameters; no theorem below constrains
  their values.
-/

/-! ### Generic helpers -/

/-- Minimum of a list of rationals (`np.min` over a non-empty axis);
0 for the empty list, which is never used on an empty list below. -/
def minOf : List ℚ → ℚ
  | [] => 0
  | a :: t => t.foldl min a

/-- Maximum of a list of rationals (`np.max`). -/
def maxOf : List ℚ → ℚ
  | [] => 0
  | a :: t => t.foldl max a

/-- Python's `%` on floats for a non-zero modulus: `a - b * floor(a / b)`.
For `b > 0` the result lies in `[0, b)` regardless of the sign of `a`. -/
def pymod (a b : ℚ) : ℚ := a - b * ⌊a / b⌋

/-- Python's `int()` on a float: truncation toward zero. -/
def pytrunc (q : ℚ) : ℤ := if 0 ≤ q then ⌊q⌋ else -⌊-q⌋

/-! ### Keypoint data model -/

/-- A single coordinate of a keypoint; `none` models IEEE `NaN`. -/
abbrev Coord := Option ℚ

/-- One joint of a clip frame: `(x, y, confidence)` as stored in the
keypoint pickle files. -/
abbrev KJoint := Coord × Coord × Coord

/-- One frame of a motion clip: a list of joints. -/
abbrev KFrame := List KJoint

/-- Clip identifiers (filenames in the source, abstracted to naturals). -/
abbrev ClipId := ℕ

/-- `np.isnan(frame).any()`: does any coordinate of any joint hold `NaN`? -/
def frameHasNaN (f : KFrame) : Bool :=
  f.any fun j => j.1.isNone || j.2.1.isNone || j.2.2.isNone

/-- `KeypointDataLoader.load_keypoint_file`: returns the frame list of a clip,
or `none` on any read failure (the loader catches its own exceptions). -/
abbrev ClipStore := ClipId → Option (List KFrame)

/-! ### `DanceMoveSampler` construction and feature pipeline
(`data_analyzer.py`) -/

inductive DanceIntensity
  | low
  | medium
  | high
  deriving DecidableEq, Repr

namespace DanceMoveSampler

/-- `DanceMoveSampler.__init__` (lines 43–51): stores the two weights and then
divides each by their sum.  Returns the stored
`(amplitude_weight, bpm_weight)` pair. -/
def initWeights (amplitude_weight bpm_weight : ℚ) : ℚ × ℚ :=
  let total_weight := amplitude_weight + bpm_weight
  (amplitude_weight / total_weight, bpm_weight / total_weight)

/-- `DanceMoveSampler.normalize_features` (lines 105–124): min-max
normalization of amplitudes across the whole song (all-equal lists map to
constant `0.5`), and the fixed affine `(bpm - 60)/(200 - 60)` map on BPMs,
clamped to `[0, 1]`. -/
def normalize_features (amplitudes bpms : List ℚ) : List ℚ × List ℚ :=
  let norm_amplitudes :=
    if amplitudes ≠ [] then
      let min_amp := minOf amplitudes
      let max_amp := maxOf amplitudes
      if min_amp < max_amp then
        amplitudes.map fun a => (a - min_amp) / (max_amp - min_amp)
      else
        List.replicate amplitudes.length (1/2 : ℚ)
    else []
  let norm_bpms := bpms.map fun bpm => max 0 (min 1 ((bpm - 60) / (200 - 60)))
  (norm_amplitudes, norm_bpms)

/-- `DanceMoveSampler.calculate_intensity_score` (lines 126–129). -/
def calculate_intensity_score (amplitude_weight bpm_weight norm_amplitude norm_bpm : ℚ) : ℚ :=
  amplitude_weight * norm_amplitude + bpm_weight * norm_bpm

/-- Intensity classification inside `sample_dance_moves_for_song`
(lines 282–287): `score ≤ low → LOW`, else `score ≥ high → HIGH`,
else `MEDIUM`. -/
def classify_intensity (score low_threshold high_threshold : ℚ) : DanceIntensity :=
  if score ≤ low_threshold then DanceIntensity.low
  else if score ≥ high_threshold then DanceIntensity.high
  else DanceIntensity.medium

end DanceMoveSampler

/-! ### `RealTimePoseScorer` construction and pose normalization
(`real_time_pose_scorer.py`) -/

/-- A live/reference pose: a list of `(x, y)` joint coordinates (the `(N, 2)`
layout of the scorer). -/
abbrev Pose := List (ℚ × ℚ)

namespace RealTimePoseScorer

/-- Static configuration of the scorer, as stored by `__init__`
(lines 53–58).  The constructor stores the three component weights verbatim:
no normalization is applied to them. -/
structure Cfg where
  spatial_weight : ℚ
  timing_weight : ℚ
  rhythm_weight : ℚ
  alpha : ℚ
  smoothing_factor : ℚ
  max_history : ℕ
  deriving DecidableEq, Repr

/-- `RealTimePoseScorer.__init__` (lines 35–58): each field is assigned
directly from the corresponding argument. -/
def init (spatial_weight timing_weight rhythm_weight alpha smoothing_factor : ℚ)
    (max_history : ℕ) : Cfg :=
  { spatial_weight := spatial_weight
    timing_weight := timing_weight
    rhythm_weight := rhythm_weight
    alpha := alpha
    smoothing_factor := smoothing_factor
    max_history := max_history }

/-- The joints of a pose that count as valid for normalization: numpy mask
`~((pose[:, 0] == 0) & (pose[:, 1] == 0))` (line 112). -/
def validJoints (pose : Pose) : Pose :=
  pose.filter fun p => ¬(p.1 = 0 ∧ p.2 = 0)

/-- `RealTimePoseScorer.normalize_pose` (lines 89–132), for the `(N, 2)`
layout: filter out `(0, 0)` joints, compute the bounding box of the remaining
joints, replace a zero height by `1.0`, then translate every joint by the box
center and divide by the height.  Empty poses and poses without any valid
joint are returned unchanged. -/
def normalize_pose (pose : Pose) : Pose :=
  if pose = [] then pose
  else
    let valid := pose.filter fun p => ¬(p.1 = 0 ∧ p.2 = 0)
    if valid = [] then pose
    else
      let min_x := minOf (valid.map Prod.fst)
      let min_y := minOf (valid.map Prod.snd)
      let max_x := maxOf (valid.map Prod.fst)
      let max_y := maxOf (valid.map Prod.snd)
      let height := max_y - min_y
      let height := if height = 0 then 1 else height
      let center_x := (min_x + max_x) / 2
      let center_y := (min_y + max_y) / 2
      pose.map fun p => ((p.1 - center_x) / height, (p.2 - center_y) / height)

/-- Modelled from the spec sentence of claim C5 only (NOT from the source):
identical to `normalize_pose` except that the height is *floored at 1.0*, so
the scaling divisor is never below `1.0`.  Used to exhibit where the claim
diverges from the code. -/
def normalize_pose_flooredHeight (pose : Pose) : Pose :=
  if pose = [] then pose
  else
    let valid := pose.filter fun p => ¬(p.1 = 0 ∧ p.2 = 0)
    if valid = [] then pose
    else
      let min_x := minOf (valid.map Prod.fst)
      let min_y := minOf (valid.map Prod.snd)
      let max_x := maxOf (valid.map Prod.fst)
      let max_y := maxOf (valid.map Prod.snd)
      let height := max 1 (max_y - min_y)
      let center_x := (min_x + max_x) / 2
      let center_y := (min_y + max_y) / 2
      pose.map fun p => ((p.1 - center_x) / height, (p.2 - center_y) / height)

/-- The scaling divisor actually used by `normalize_pose` on a pose with at
least one valid joint. -/
def scalingDivisor (pose : Pose) : ℚ :=
  let ys := (validJoints pose).map Prod.snd
  if maxOf ys - minOf ys = 0 then 1 else maxOf ys - minOf ys

end RealTimePoseScorer

/-! ### Scorer session state, reference alignment, and `score_pose`
(`real_time_pose_scorer.py`, lines 60–70, 134–155, 222–263, 328–369) -/

/-- Append on a `collections.deque(maxlen = cap)`: push to the back, evicting
from the front once the capacity is reached. -/
def pushBounded {α : Type} (cap : ℕ) (l : List α) (x : α) : List α :=
  let l' := l ++ [x]
  l'.drop (l'.length - cap)

namespace RealTimePoseScorer

/-- One scored sample (`PoseScore` dataclass, lines 12–19). -/
structure PoseScoreQ where
  spatial_score : ℚ
  timing_score : ℚ
  rhythm_score : ℚ
  frame_score : ℚ
  timestamp : ℚ
  deriving DecidableEq, Repr

/-- Mutable scoring state created by `__init__` (lines 60–70): rolling
bounded buffers, the loaded reference sequence, the smoothing window and the
alignment anchor. -/
structure ScorerState where
  user_poses : List Pose
  user_timestamps : List ℚ
  reference_poses : List Pose
  reference_timestamps : List ℚ
  pose_scores : List PoseScoreQ
  pose_history : List Pose
  start_time : Option ℚ
  current_ref_index : ℕ

/-- The fresh state built by `__init__`. -/
def initState : ScorerState :=
  { user_poses := []
    user_timestamps := []
    reference_poses := []
    reference_timestamps := []
    pose_scores := []
    pose_history := []
    start_time := none
    current_ref_index := 0 }

/-- `RealTimePoseScorer.smooth_pose` (lines 134–155): EWMA smoothing.  The
first pose is stored and returned as-is; afterwards
`smoothed = factor·pose + (1 − factor)·previous` (elementwise), appended to
the 5-deep smoothing window. -/
def smooth_pose (smoothing_factor : ℚ) (pose_history : List Pose) (pose : Pose) :
    Pose × List Pose :=
  match pose_history.getLast? with
  | none => (pose, pushBounded 5 pose_history pose)
  | some prev_pose =>
    let smoothed := pose.zipWith (fun p q =>
      (smoothing_factor * p.1 + (1 - smoothing_factor) * q.1,
       smoothing_factor * p.2 + (1 - smoothing_factor) * q.2)) prev_pose
    (smoothed, pushBounded 5 pose_history smoothed)

/-- `RealTimePoseScorer.find_best_reference_match` (lines 222–251).  The
euclidean pose distance (`compute_pose_distance`, irrational) is abstracted
as the collaborator `distFn`; the returned distance is `Option ℚ` with
`none` standing for `float('inf')`.  On the happy path the reference index
is `min(int(progress · refPoseCount), refPoseCount − 1)` with
`progress = ((timestamp − start) mod refDuration) / refDuration` and
`refDuration` the last reference timestamp.  (For `refDuration = 0` Python
raises `ZeroDivisionError`; all theorems below assume a positive
`refDuration`.) -/
def find_best_reference_match (distFn : Pose → Pose → ℚ) (st : ScorerState)
    (user_pose : Pose) (timestamp : ℚ) : (ℤ × Option ℚ) × ScorerState :=
  if st.reference_poses = [] then ((0, none), st)
  else
    let start_time := st.start_time.getD timestamp
    let st' := { st with start_time := some start_time }
    let elapsed_time := timestamp - start_time
    let ref_duration :=
      match st.reference_timestamps.getLast? with
      | some d => d
      | none => 1
    let progress := pymod elapsed_time ref_duration / ref_duration
    let ref_index := pytrunc (progress * st.reference_poses.length)
    let ref_index := min ref_index ((st.reference_poses.length : ℤ) - 1)
    let distance := distFn user_pose (st.reference_poses.getD ref_index.toNat [])
    ((ref_index, some distance), st')

/-- `RealTimePoseScorer.compute_frame_score` (lines 253–263):
`np.clip(np.exp(-alpha * distance), 0, 1)`.  `np.exp` is abstracted as the
collaborator `expFn`.  A distance of `none` models `float('inf')`: in IEEE
arithmetic `np.exp(-alpha * inf) = 0.0` exactly whenever `alpha > 0` (the
regime of every theorem below), and the clip keeps it at `0`. -/
def compute_frame_score (expFn : ℚ → ℚ) (alpha : ℚ) : Option ℚ → ℚ
  | some d => max 0 (min 1 (expFn (-alpha * d)))
  | none => 0

/-- `RealTimePoseScorer.score_pose` (lines 328–369): normalize, smooth,
append the pose and timestamp to the rolling history, align against the
reference, derive the frame/spatial score, attach the timing and rhythm
sub-scores (collaborators `timingFn`/`rhythmFn`: their `np.std` /
`np.corrcoef` internals are irrational and no claim constrains them), and
append the sample to the score history. -/
def score_pose (cfg : Cfg) (distFn : Pose → Pose → ℚ) (expFn : ℚ → ℚ)
    (timingFn : List ℚ → ℚ) (rhythmFn : List Pose → List Pose → ℚ)
    (st : ScorerState) (user_pose : Pose) (timestamp : ℚ) :
    PoseScoreQ × ScorerState :=
  let normalized_pose := normalize_pose user_pose
  let smres := smooth_pose cfg.smoothing_factor st.pose_history normalized_pose
  let smoothed_pose := smres.1
  let st := { st with
    pose_history := smres.2
    user_poses := pushBounded cfg.max_history st.user_poses smoothed_pose
    user_timestamps := pushBounded cfg.max_history st.user_timestamps timestamp }
  let fres := find_best_reference_match distFn st smoothed_pose timestamp
  let st := fres.2
  let frame_score := compute_frame_score expFn cfg.alpha fres.1.2
  let spatial_score := frame_score
  let timing_score := timingFn st.user_timestamps
  let rhythm_score := rhythmFn st.user_poses st.reference_poses
  let pose_score : PoseScoreQ :=
    { spatial_score := spatial_score
      timing_score := timing_score
      rhythm_score := rhythm_score
      frame_score := frame_score
      timestamp := timestamp }
  (pose_score, { st with pose_scores := pushBounded cfg.max_history st.pose_scores pose_score })

end RealTimePoseScorer

/-! ### Sequencer clip selection, frame resolution and the main loop
(`data_analyzer.py`, lines 208–494) -/

/-- Stream of pseudo-random draws, consumed left to right. -/
abbrev Rng := List ℕ

namespace DanceMoveSampler

/-- Catalog of clips by intensity label, as assembled at the start of
`sample_dance_moves_for_song` (lines 241–244). -/
structure Catalog where
  high_dances : List ClipId
  medium_dances : List ClipId
  low_dances : List ClipId
  available_dances : List ClipId

/-- `get_dances_by_intensity` (lines 200–206): positions of the mappings list
carrying the wanted label, restricted to positions with an available clip. -/
def get_dances_by_intensity (intensity : DanceIntensity)
    (available_dances : List ClipId) (intensity_mappings : List DanceIntensity) :
    List ClipId :=
  (List.range intensity_mappings.length).filterMap fun i =>
    if intensity_mappings.getD i DanceIntensity.medium = intensity
        ∧ i < available_dances.length then
      some (available_dances.getD i 0)
    else none

/-- `random.choice(pool)`, drawing one value from the stream; `none` when the
pool is empty (Python raises `IndexError` there, aborting the whole run). -/
def pychoice (pool : List ClipId) (rng : Rng) : Option (ClipId × Rng) :=
  if pool.isEmpty then none
  else some (pool.getD (rng.headD 0 % pool.length) 0, rng.tail)

/-- Intensity-directed clip choice with fallback to the full catalog; this
exact branch structure appears twice in the source, in the retry loop
(lines 334–343) and in the post-loop fallback (lines 386–394). -/
def pickByIntensity (cat : Catalog) (intensity : DanceIntensity) (rng : Rng) :
    Option (ClipId × Rng) :=
  if intensity = DanceIntensity.high ∧ cat.high_dances ≠ [] then
    pychoice cat.high_dances rng
  else if intensity = DanceIntensity.medium ∧ cat.medium_dances ≠ [] then
    pychoice cat.medium_dances rng
  else if intensity = DanceIntensity.low ∧ cat.low_dances ≠ [] then
    pychoice cat.low_dances rng
  else
    pychoice cat.available_dances rng

/-- The NaN-sampling inner loop of the quality check (lines 360–372): draw
`k` random frame indices and count the sampled frames containing NaN. -/
def sampleNaNCount (frames : List KFrame) (num_frames : ℕ) :
    ℕ → Rng → ℕ × Rng
  | 0, rng => (0, rng)
  | k + 1, rng =>
    let frame_idx := rng.headD 0 % num_frames
    let c : ℕ := if frameHasNaN (frames.getD frame_idx []) then 1 else 0
    let rest := sampleNaNCount frames num_frames k rng.tail
    (c + rest.1, rest.2)

/-- Quality check of one candidate clip (lines 345–382): sample
`min(10, num_frames)` random frames and accept iff fewer than 30% of them
contain NaN.  A load failure, or an empty clip (where `random.randint`
raises and the `except` clause continues the loop), rejects the candidate
without consuming draws. -/
def checkDance (store : ClipStore) (d : ClipId) (rng : Rng) : Bool × Rng :=
  match store d with
  | none => (false, rng)
  | some frames =>
    let num_frames := frames.length
    if num_frames = 0 then (false, rng)
    else
      let sample_frames := min 10 num_frames
      let res := sampleNaNCount frames num_frames sample_frames rng
      (decide (res.1 * 10 < 3 * sample_frames), res.2)

/-- The retry loop of clip selection (lines 330–382).  `none` = aborted run
(`random.choice` on an empty pool raised); `some (none, rng)` = every retry
was rejected by the quality filter; `some (some d, rng)` = accepted `d`. -/
def selectLoop (store : ClipStore) (cat : Catalog) (intensity : DanceIntensity) :
    ℕ → Rng → Option (Option ClipId × Rng)
  | 0, rng => some (none, rng)
  | k + 1, rng =>
    match pickByIntensity cat intensity rng with
    | none => none
    | some (selected_dance, rng) =>
      let chk := checkDance store selected_dance rng
      if chk.1 then some (some selected_dance, chk.2)
      else selectLoop store cat intensity k chk.2

/-- Full clip selection (lines 328–398): 10 retries with quality filtering;
if every retry fails, one **fresh** unchecked choice is drawn from the
intensity pool (lines 385–394). -/
def selectNewDance (store : ClipStore) (cat : Catalog) (intensity : DanceIntensity)
    (rng : Rng) : Option (ClipId × Rng) :=
  match selectLoop store cat intensity 10 rng with
  | none => none
  | some (some d, rng) => some (d, rng)
  | some (none, rng) => pickByIntensity cat intensity rng

/-- `get_dance_duration` (lines 179–190): frame count of the loaded sequence
divided by the default frame rate 30.0; any load failure falls back to a
5-second duration. -/
def get_dance_duration (store : ClipStore) (d : ClipId) : ℚ :=
  match store d with
  | some frames => (frames.length : ℚ) / 30
  | none => 5

/-- The synthesized default standing pose (lines 462–471): 17 zeroed joints
with nose, eyes, shoulders and hips populated. -/
def defaultPose : KFrame :=
  [(some 500, some 200, some (9/10)),
   (some 490, some 210, some (9/10)),
   (some 510, some 210, some (9/10)),
   (some 0, some 0, some 0),
   (some 0, some 0, some 0),
   (some 480, some 300, some (9/10)),
   (some 520, some 300, some (9/10)),
   (some 0, some 0, some 0),
   (some 0, some 0, some 0),
   (some 0, some 0, some 0),
   (some 0, some 0, some 0),
   (some 480, some 500, some (9/10)),
   (some 520, some 500, some (9/10)),
   (some 0, some 0, some 0),
   (some 0, some 0, some 0),
   (some 0, some 0, some 0),
   (some 0, some 0, some 0)]

/-- The outward search for a clean frame (lines 445–458): Python iterates
`offset in range(1, min(50, num_frames))` — the upper bound is excluded —
and for each offset tries direction `+1` then `-1`, wrapping the index
modulo `num_frames`, returning the first frame free of NaN. -/
def searchClean (frames : List KFrame) (dance_frame : ℕ) : Option KFrame :=
  (List.range' 1 (min 50 frames.length - 1)).findSome? fun (offset : ℕ) =>
    ([1, -1] : List ℤ).findSome? fun direction =>
      let try_frame := (((dance_frame : ℤ) + (offset : ℤ) * direction).emod frames.length).toNat
      let try_pose := frames.getD try_frame []
      if frameHasNaN try_pose then none else some try_pose

/-- Modelled from the spec sentence of claim C4 only (NOT from the source):
the same outward search but with offsets `1` through `min(50, frameCount)`
**inclusive**, as the claim states.  Used to exhibit where the claim
diverges from the code. -/
def searchCleanInclusive (frames : List KFrame) (dance_frame : ℕ) : Option KFrame :=
  (List.range' 1 (min 50 frames.length)).findSome? fun (offset : ℕ) =>
    ([1, -1] : List ℤ).findSome? fun direction =>
      let try_frame := (((dance_frame : ℤ) + (offset : ℤ) * direction).emod frames.length).toNat
      let try_pose := frames.getD try_frame []
      if frameHasNaN try_pose then none else some try_pose

/-- The candidate indices visited by `searchClean`, flattened in visiting
order: `d+1, d−1, d+2, d−2, …` (wrapped), offsets strictly below
`min(50, frameCount)`. -/
def searchOrder (num_frames dance_frame : ℕ) : List ℕ :=
  (List.range' 1 (min 50 num_frames - 1)).flatMap fun offset =>
    [(((dance_frame : ℤ) + (offset : ℤ)).emod num_frames).toNat,
     (((dance_frame : ℤ) - (offset : ℤ)).emod num_frames).toNat]

/-- Pose resolution at a wrapped frame index (lines 437–471): the frame
itself when fully valid, otherwise the first valid frame of the outward
search, otherwise the synthesized default pose. -/
def resolvePose (frames : List KFrame) (dance_frame : ℕ) : Option KFrame :=
  let candidate_pose := frames.getD dance_frame []
  if frameHasNaN candidate_pose then
    match searchClean frames dance_frame with
    | some p => some p
    | none => some defaultPose
  else some candidate_pose

/-- The raw target frame index of a segment frame (line 412):
`int(current_dance_elapsed * frame_rate) + frame_idx` (the elapsed time is
never negative in the sequencer, so `int()` truncation is the floor). -/
def rawFrameIndex (current_dance_elapsed frame_rate : ℚ) (frame_idx : ℕ) : ℕ :=
  (⌊current_dance_elapsed * frame_rate⌋).toNat + frame_idx

/-- The per-frame index wrapping and pose loading (lines 414–474): with no
active clip or a failed load the pose is `None` and the raw index is left
unwrapped; with loaded frames and a positive frame count the index is
wrapped modulo the frame count and the pose resolved at it. -/
def framePoseAndIndex (load : Option (List KFrame)) (dance_frame : ℕ) :
    ℕ × Option KFrame :=
  match load with
  | none => (dance_frame, none)
  | some frames =>
    if 0 < frames.length then
      (dance_frame % frames.length, resolvePose frames (dance_frame % frames.length))
    else (dance_frame, none)

end DanceMoveSampler

namespace DanceMoveSampler

/-- Fixture for claim C2: two clips tagged high-intensity. -/
def exCatalogC2 : Catalog :=
  { high_dances := [0, 1]
    medium_dances := []
    low_dances := []
    available_dances := [0, 1] }

/-- Fixture for claim C2: every clip consists of one all-NaN frame, so every
quality check fails. -/
def exStoreC2 : ClipStore := fun _ => some [[(none, none, none)]]

/-- Fixture for claim C2: twenty draws of `0` (each of the 10 attempts picks
clip 0 and samples one frame), then a draw of `1` for the fallback. -/
def exRngC2 : Rng := List.replicate 20 0 ++ [1]

/-- Fixture for claim C4: 101 frames, all NaN except frame 50. -/
def exFramesC4 : List KFrame :=
  (List.replicate 101 [((none : Coord), (none : Coord), (none : Coord))]).set 50
    [(some 1, some 1, some 1)]

end DanceMoveSampler

namespace DanceMoveSampler

/-- One output record of `sample_dance_moves_for_song` (lines 476–483). -/
structure ChoreographyFrame where
  frame_number : ℕ
  time : ℚ
  dance_file : Option ClipId
  dance_frame : ℕ
  intensity : DanceIntensity
  pose_data : Option KFrame
  deriving DecidableEq, Repr

/-- Caller-facing configuration of one sequencing run: the (already
normalized) weights held by the sampler and the arguments of
`sample_dance_moves_for_song`. -/
structure SamplerConfig where
  amplitude_weight : ℚ
  bpm_weight : ℚ
  low_threshold : ℚ
  high_threshold : ℚ
  frame_rate : ℚ
  frame_delay : ℚ

/-- The delay added to each frame time (lines 408–409: added only when
strictly positive). -/
def effectiveDelay (frame_delay : ℚ) : ℚ := if frame_delay > 0 then frame_delay else 0

/-- The mutable loop state of `sample_dance_moves_for_song`
(lines 271–276).  `seg_dur_var` is the Python local `segment_duration`,
assigned at line 401 and read at line 319, where it still holds the
*previous* segment's duration (that read is unreachable on the first
segment, where no clip is active yet). -/
structure SeqState where
  current_dance_file : Option ClipId
  current_dance_duration : ℚ
  current_dance_elapsed : ℚ
  current_intensity : Option DanceIntensity
  frame_number : ℕ
  rng : Rng
  seg_dur_var : ℚ

/-- Initial loop state (lines 271–276). -/
def initialSeqState (rng : Rng) : SeqState :=
  { current_dance_file := none
    current_dance_duration := 0
    current_dance_elapsed := 0
    current_intensity := none
    frame_number := 0
    rng := rng
    seg_dur_var := 0 }

/-- The per-segment decision whether a new clip is needed (lines 289–325):
no active clip, or the clip's time exhausted, or an intensity change after
more than 2 s of dwell, or too few remaining frames for this segment's
frame budget (a failed load in that last check changes nothing). -/
def needNewDance (store : ClipStore) (frame_rate : ℚ) (st : SeqState)
    (intensity : DanceIntensity) : Bool :=
  match st.current_dance_file with
  | none => true
  | some d =>
    if st.current_dance_elapsed ≥ st.current_dance_duration then true
    else if some intensity ≠ st.current_intensity ∧ st.current_dance_elapsed > 2 then true
    else
      match store d with
      | none => false
      | some frames =>
        let frames_needed := pytrunc (st.seg_dur_var * frame_rate)
        let current_frame_index := pytrunc (st.current_dance_elapsed * frame_rate)
        decide (current_frame_index + frames_needed ≥ (frames.length : ℤ))

/-- The frame-emission loop of one segment (lines 400–485): one record per
frame of the segment's budget `int(segment_duration · frame_rate)`, at time
`start + idx/frame_rate (+ delay)`, with the wrapped index and resolved
pose of `framePoseAndIndex`. -/
def segmentFrames (store : ClipStore) (frame_rate frame_delay : ℚ) (st : SeqState)
    (intensity : DanceIntensity) (start_time end_time : ℚ) : List ChoreographyFrame :=
  let segment_duration := end_time - start_time
  let total_frames := (pytrunc (segment_duration * frame_rate)).toNat
  (List.range total_frames).map fun frame_idx =>
    let fp := framePoseAndIndex (st.current_dance_file.bind store)
      (rawFrameIndex st.current_dance_elapsed frame_rate frame_idx)
    { frame_number := st.frame_number + frame_idx
      time := start_time + (frame_idx : ℚ) / frame_rate + effectiveDelay frame_delay
      dance_file := st.current_dance_file
      dance_frame := fp.1
      intensity := intensity
      pose_data := fp.2 }

/-- One iteration of the segment loop (lines 277–488): classify the
segment, select a new clip when needed (`none` = the run aborted inside
`random.choice`), emit the segment's frames, then advance the elapsed time
and the Python `segment_duration` local. -/
def processSegment (store : ClipStore) (cat : Catalog) (cfg : SamplerConfig)
    (st : SeqState) (start_time end_time norm_amp norm_bpm : ℚ) :
    Option (SeqState × List ChoreographyFrame) :=
  let score := calculate_intensity_score cfg.amplitude_weight cfg.bpm_weight norm_amp norm_bpm
  let intensity := classify_intensity score cfg.low_threshold cfg.high_threshold
  let selRes : Option SeqState :=
    if needNewDance store cfg.frame_rate st intensity then
      match selectNewDance store cat intensity st.rng with
      | none => none
      | some (d, rng') =>
        some { st with
          current_dance_file := some d
          current_dance_duration := get_dance_duration store d
          current_dance_elapsed := 0
          current_intensity := some intensity
          rng := rng' }
    else some st
  match selRes with
  | none => none
  | some st' =>
    let frames := segmentFrames store cfg.frame_rate cfg.frame_delay st' intensity
      start_time end_time
    let segment_duration := end_time - start_time
    some ({ st' with
      current_dance_elapsed := st'.current_dance_elapsed + segment_duration
      frame_number := st'.frame_number + frames.length
      seg_dur_var := segment_duration }, frames)

/-- The segment loop over the whole song; aborts (returning `none`, i.e. the
outer `except` yielding an empty run) as soon as a segment aborts. -/
def runSegments (store : ClipStore) (cat : Catalog) (cfg : SamplerConfig) :
    SeqState → List ((ℚ × ℚ × ℚ × ℚ) × ℚ × ℚ) →
    Option (SeqState × List ChoreographyFrame)
  | st, [] => some (st, [])
  | st, seg :: rest =>
    match processSegment store cat cfg st seg.1.1 seg.1.2.1 seg.2.1 seg.2.2 with
    | none => none
    | some (st', fs) =>
      match runSegments store cat cfg st' rest with
      | none => none
      | some (st'', fs') => some (st'', fs ++ fs')

/-- Number of 5-second analysis windows of `np.arange(0, song_duration, 5.0)`
(line 257). -/
def numSegments (song_duration : ℚ) : ℕ := Int.toNat ⌈song_duration / 5⌉

/-- Start of the `i`-th analysis window. -/
def segStart (i : ℕ) : ℚ := 5 * i

/-- End of the `i`-th analysis window: `min(start + 5, song_duration)`
(line 258). -/
def segEnd (song_duration : ℚ) (i : ℕ) : ℚ := min (segStart i + 5) song_duration

/-- `DanceMoveSampler.sample_dance_moves_for_song` (lines 208–494).  The
audio analysis (`analyze_amplitude` / `analyze_bpm`, lines 61–103) is the
AudioFeatureProvider collaborator, abstracted as `ampFn` / `bpmFn` over the
segment window; the two-pass structure (collect per-segment features,
normalize, then run the stateful segment loop) mirrors lines 252–290.  An
empty intensity catalog yields an empty run (lines 236–238); an abort inside
clip selection propagates to the outer `except`, also yielding an empty run
(lines 492–494). -/
def sample_dance_moves_for_song (store : ClipStore)
    (intensity_mappings : List DanceIntensity) (available_dances : List ClipId)
    (ampFn bpmFn : ℚ → ℚ → ℚ) (cfg : SamplerConfig) (song_duration : ℚ)
    (rng : Rng) : List ChoreographyFrame :=
  if intensity_mappings = [] then []
  else
    let cat : Catalog :=
      { high_dances := get_dances_by_intensity DanceIntensity.high available_dances intensity_mappings
        medium_dances := get_dances_by_intensity DanceIntensity.medium available_dances intensity_mappings
        low_dances := get_dances_by_intensity DanceIntensity.low available_dances intensity_mappings
        available_dances := available_dances }
    let n := numSegments song_duration
    let amplitudes := (List.range n).map fun i => ampFn (segStart i) (segEnd song_duration i)
    let bpms := (List.range n).map fun i => bpmFn (segStart i) (segEnd song_duration i)
    let norms := normalize_features amplitudes bpms
    let segs := (List.range n).map fun i =>
      ((segStart i, segEnd song_duration i, amplitudes.getD i 0, bpms.getD i 0),
       (norms.1.getD i 0, norms.2.getD i 0))
    match runSegments store cat cfg (initialSeqState rng) segs with
    | none => []
    | some res => res.2

end DanceMoveSampler

namespace DanceMoveSampler

/-- Fixture configuration for the C10 witness: frame rate 2, no delay. -/
def exCfgC10 : SamplerConfig :=
  { amplitude_weight := 3/5
    bpm_weight := 2/5
    low_threshold := 3/10
    high_threshold := 7/10
    frame_rate := 2
    frame_delay := 0 }

end DanceMoveSampler

/-! ### Theorems -/

open DanceMoveSampler RealTimePoseScorer

theorem foldl_min_le_init (l : List ℚ) (a : ℚ) : l.foldl min a ≤ a := by
  induction l generalizing a with
  | nil => simp
  | cons b t ih => exact le_trans (ih (min a b)) (min_le_left a b)

theorem foldl_min_le_of_mem {l : List ℚ} {x : ℚ} (hx : x ∈ l) (a : ℚ) :
    l.foldl min a ≤ x := by
  induction l generalizing a with
  | nil => cases hx
  | cons b t ih =>
    rcases List.mem_cons.mp hx with h | h
    · subst h
      exact le_trans (foldl_min_le_init t (min a x)) (min_le_right a x)
    · exact ih h (min a b)

theorem minOf_le_of_mem {l : List ℚ} {x : ℚ} (hx : x ∈ l) : minOf l ≤ x := by
  cases l with
  | nil => cases hx
  | cons a t =>
    rcases List.mem_cons.mp hx with h | h
    · subst h; exact foldl_min_le_init t x
    · exact foldl_min_le_of_mem h a

theorem le_foldl_max_init (l : List ℚ) (a : ℚ) : a ≤ l.foldl max a := by
  induction l generalizing a with
  | nil => simp
  | cons b t ih => exact le_trans (le_max_left a b) (ih (max a b))

theorem le_foldl_max_of_mem {l : List ℚ} {x : ℚ} (hx : x ∈ l) (a : ℚ) :
    x ≤ l.foldl max a := by
  induction l generalizing a with
  | nil => cases hx
  | cons b t ih =>
    rcases List.mem_cons.mp hx with h | h
    · subst h
      exact le_trans (le_max_right a x) (le_foldl_max_init t (max a x))
    · exact ih h (max a b)

theorem le_maxOf_of_mem {l : List ℚ} {x : ℚ} (hx : x ∈ l) : x ≤ maxOf l := by
  cases l with
  | nil => cases hx
  | cons a t =>
    rcases List.mem_cons.mp hx with h | h
    · subst h; exact le_foldl_max_init t x
    · exact le_foldl_max_of_mem h a

theorem foldl_min_mem (l : List ℚ) (a : ℚ) : l.foldl min a = a ∨ l.foldl min a ∈ l := by
  induction l generalizing a with
  | nil => left; rfl
  | cons b t ih =>
    rcases ih (min a b) with h | h
    · rcases min_cases a b with ⟨hm, _⟩ | ⟨hm, _⟩
      · left; rw [List.foldl_cons, h, hm]
      · right; rw [List.foldl_cons, h, hm]; exact List.mem_cons_self b t
    · right; exact List.mem_cons_of_mem b h

theorem minOf_mem {l : List ℚ} (h : l ≠ []) : minOf l ∈ l := by
  cases l with
  | nil => exact absurd rfl h
  | cons a t =>
    rcases foldl_min_mem t a with h' | h'
    · rw [minOf, h']; exact List.mem_cons_self a t
    · exact List.mem_cons_of_mem a h'

theorem foldl_max_mem (l : List ℚ) (a : ℚ) : l.foldl max a = a ∨ l.foldl max a ∈ l := by
  induction l generalizing a with
  | nil => left; rfl
  | cons b t ih =>
    rcases ih (max a b) with h | h
    · rcases max_cases a b with ⟨hm, _⟩ | ⟨hm, _⟩
      · left; rw [List.foldl_cons, h, hm]
      · right; rw [List.foldl_cons, h, hm]; exact List.mem_cons_self b t
    · right; exact List.mem_cons_of_mem b h

theorem maxOf_mem {l : List ℚ} (h : l ≠ []) : maxOf l ∈ l := by
  cases l with
  | nil => exact absurd rfl h
  | cons a t =>
    rcases foldl_max_mem t a with h' | h'
    · rw [maxOf, h']; exact List.mem_cons_self a t
    · exact List.mem_cons_of_mem a h'

theorem minOf_le_maxOf {l : List ℚ} (h : l ≠ []) : minOf l ≤ maxOf l :=
  le_trans (minOf_le_of_mem (minOf_mem h)) (le_maxOf_of_mem (minOf_mem h))

theorem pymod_nonneg {a b : ℚ} (hb : 0 < b) : 0 ≤ pymod a b := by
  unfold pymod
  have h : (⌊a / b⌋ : ℚ) ≤ a / b := Int.floor_le (a / b)
  have := mul_le_mul_of_nonneg_left h (le_of_lt hb)
  rw [mul_div_cancel₀ a (ne_of_gt hb)] at this
  linarith

theorem pymod_lt {a b : ℚ} (hb : 0 < b) : pymod a b < b := by
  unfold pymod
  have h : a / b < (⌊a / b⌋ : ℚ) + 1 := Int.lt_floor_add_one (a / b)
  have := mul_lt_mul_of_pos_left h hb
  rw [mul_div_cancel₀ a (ne_of_gt hb)] at this
  linarith

theorem pymod_add_self {a b : ℚ} (hb : b ≠ 0) : pymod (a + b) b = pymod a b := by
  unfold pymod
  have : (a + b) / b = a / b + 1 := by field_simp
  rw [this, Int.floor_add_one]
  push_cast
  ring

theorem pytrunc_of_nonneg {q : ℚ} (h : 0 ≤ q) : pytrunc q = ⌊q⌋ := if_pos h

/-! ### Claims C1, C5, C6, C7 -/

/-- C1, counterexample: `RealTimePoseScorer.__init__` does **not** normalize
its spatial/timing/rhythm weights.  Constructed with the positive weights
`(3, 1, 1)`, the stored triple sums to `5`, not `1`. -/
theorem scorer_weights_not_normalized_counterexample :
    (RealTimePoseScorer.init 3 1 1 2 (3/10) 100).spatial_weight
      + (RealTimePoseScorer.init 3 1 1 2 (3/10) 100).timing_weight
      + (RealTimePoseScorer.init 3 1 1 2 (3/10) 100).rhythm_weight = 5 ∧
    (5 : ℚ) ≠ 1 := by
  refine ⟨?_, by norm_num⟩
  norm_num [RealTimePoseScorer.init]

/-- C1, amended: the sequencer (`DanceMoveSampler.__init__`) normalizes the
amplitude/bpm weight pair so it sums to exactly 1 (inputs `(3, 1)` become
`(3/4, 1/4)`); the scorer (`RealTimePoseScorer.__init__`) stores its
spatial/timing/rhythm weights verbatim, without normalization. -/
theorem sampler_normalizes_scorer_stores_verbatim
    (aw bw sw tw rh alpha sf : ℚ) (mh : ℕ) (ha : 0 < aw) (hb : 0 < bw) :
    (DanceMoveSampler.initWeights aw bw).1 + (DanceMoveSampler.initWeights aw bw).2 = 1 ∧
    DanceMoveSampler.initWeights 3 1 = (3/4, 1/4) ∧
    (RealTimePoseScorer.init sw tw rh alpha sf mh).spatial_weight = sw ∧
    (RealTimePoseScorer.init sw tw rh alpha sf mh).timing_weight = tw ∧
    (RealTimePoseScorer.init sw tw rh alpha sf mh).rhythm_weight = rh := by
  refine ⟨?_, by norm_num [DanceMoveSampler.initWeights], rfl, rfl, rfl⟩
  have htot : aw + bw ≠ 0 := ne_of_gt (add_pos ha hb)
  simp only [DanceMoveSampler.initWeights]
  rw [div_add_div_same, div_self htot]

/-- Witness for `sampler_normalizes_scorer_stores_verbatim` at the concrete
weights `(3, 1)` and `(2/5, 3/10, 3/10)`. -/
theorem sampler_normalizes_scorer_stores_verbatim_witness :
    (0 : ℚ) < 3 ∧ (0 : ℚ) < 1 ∧
    ((DanceMoveSampler.initWeights 3 1).1 + (DanceMoveSampler.initWeights 3 1).2 = 1 ∧
     DanceMoveSampler.initWeights 3 1 = (3/4, 1/4) ∧
     (RealTimePoseScorer.init (2/5) (3/10) (3/10) 2 (3/10) 100).spatial_weight = 2/5 ∧
     (RealTimePoseScorer.init (2/5) (3/10) (3/10) 2 (3/10) 100).timing_weight = 3/10 ∧
     (RealTimePoseScorer.init (2/5) (3/10) (3/10) 2 (3/10) 100).rhythm_weight = 3/10) :=
  ⟨by norm_num, by norm_num,
   sampler_normalizes_scorer_stores_verbatim 3 1 (2/5) (3/10) (3/10) 2 (3/10) 100
     (by norm_num) (by norm_num)⟩

/-- C6, counterexample: with `low_threshold = high_threshold = score = 1/2`
(so `low ≤ high` and `score ≥ high` both hold) the code classifies `LOW`
because the `score ≤ low` branch is checked first, contradicting the claim
that any `score ≥ high_threshold` yields `HIGH`. -/
theorem classify_intensity_counterexample :
    ((1:ℚ)/2) ≤ ((1:ℚ)/2) ∧ ((1:ℚ)/2) ≥ ((1:ℚ)/2) ∧
    DanceMoveSampler.classify_intensity (1/2) (1/2) (1/2) = DanceIntensity.low ∧
    DanceMoveSampler.classify_intensity (1/2) (1/2) (1/2) ≠ DanceIntensity.high := by
  refine ⟨le_refl _, le_refl _, ?_, ?_⟩ <;>
    simp [DanceMoveSampler.classify_intensity]

/-- C6, amended: for `low_threshold ≤ high_threshold`, the classification
returns `LOW` when `score ≤ low_threshold` (this branch wins even when the
score also reaches `high_threshold`), `HIGH` when `score ≥ high_threshold`
and `score > low_threshold`, and `MEDIUM` on the open middle; in particular
for `low_threshold < high_threshold`, a score exactly equal to
`low_threshold` yields `LOW` and one exactly equal to `high_threshold`
yields `HIGH`. -/
theorem classify_intensity_amended (s low high : ℚ) (h : low ≤ high) :
    (s ≤ low → DanceMoveSampler.classify_intensity s low high = DanceIntensity.low) ∧
    (low < s → high ≤ s → DanceMoveSampler.classify_intensity s low high = DanceIntensity.high) ∧
    (low < s → s < high → DanceMoveSampler.classify_intensity s low high = DanceIntensity.medium) := by
  unfold DanceMoveSampler.classify_intensity
  refine ⟨fun h1 => if_pos h1, fun h1 h2 => ?_, fun h1 h2 => ?_⟩
  · rw [if_neg (by linarith), if_pos (by exact h2)]
  · rw [if_neg (by linarith), if_neg (by simpa using h2)]

/-- Witness for `classify_intensity_amended`: thresholds `(3/10, 7/10)`, a
score exactly at the high threshold classifies `HIGH`. -/
theorem classify_intensity_amended_witness :
    (3:ℚ)/10 ≤ 7/10 ∧ (3:ℚ)/10 < 7/10 ∧ (7:ℚ)/10 ≤ 7/10 ∧
    DanceMoveSampler.classify_intensity (7/10) (3/10) (7/10) = DanceIntensity.high :=
  ⟨by norm_num, by norm_num, le_refl _,
   (classify_intensity_amended (7/10) (3/10) (7/10) (by norm_num)).2.1
     (by norm_num) (le_refl _)⟩

/-- C5, counterexample: for the pose `[(1, 1), (1, 3/2)]` (all joints valid,
bounding-box height `1/2`), `normalize_pose` divides by `1/2 < 1`: the height
is replaced by `1.0` only when it is exactly `0`, it is not floored at `1.0`.
The claimed floored variant produces a different result. -/
theorem normalize_pose_floor_counterexample :
    normalize_pose [((1:ℚ), (1:ℚ)), (1, 3/2)] = [(0, -(1/2)), (0, 1/2)] ∧
    normalize_pose_flooredHeight [((1:ℚ), (1:ℚ)), (1, 3/2)] = [(0, -(1/4)), (0, 1/4)] ∧
    scalingDivisor [((1:ℚ), (1:ℚ)), (1, 3/2)] = 1/2 ∧
    ¬ ((1:ℚ) ≤ 1/2) := by
  refine ⟨?_, ?_, ?_, by norm_num⟩
  · norm_num [normalize_pose, minOf, maxOf]
    rw [if_neg (List.cons_ne_nil _ _), if_neg (List.cons_ne_nil _ _)]
  · norm_num [normalize_pose_flooredHeight, minOf, maxOf]
    rw [if_neg (List.cons_ne_nil _ _), if_neg (List.cons_ne_nil _ _)]
  · norm_num [scalingDivisor, validJoints, minOf, maxOf]

/-- C5, amended: `normalize_pose` treats joints at exactly `(0, 0)` as
invalid, computes the bounding box over the valid joints only, uses the
divisor `height = maxY − minY` replaced by `1.0` only when it is exactly `0`
(so the divisor is always positive but may lie below `1.0`), translates by
the box center and scales by that divisor; with no valid joint the pose is
returned unchanged. -/
theorem normalize_pose_amended (pose : Pose) :
    (validJoints pose = [] → normalize_pose pose = pose) ∧
    (validJoints pose ≠ [] →
      0 < scalingDivisor pose ∧
      normalize_pose pose = pose.map fun p =>
        ((p.1 - (minOf ((validJoints pose).map Prod.fst)
               + maxOf ((validJoints pose).map Prod.fst)) / 2) / scalingDivisor pose,
         (p.2 - (minOf ((validJoints pose).map Prod.snd)
               + maxOf ((validJoints pose).map Prod.snd)) / 2) / scalingDivisor pose)) := by
  by_cases hp : pose = []
  · subst hp
    exact ⟨fun _ => rfl, fun h => absurd rfl h⟩
  · constructor
    · intro h
      simp only [validJoints] at h
      simp only [normalize_pose]
      rw [if_neg hp, if_pos h]
    · intro h
      simp only [validJoints] at h
      have hys : ((pose.filter fun p => ¬(p.1 = 0 ∧ p.2 = 0)).map Prod.snd) ≠ [] := by
        intro hcon
        exact h (List.map_eq_nil_iff.mp hcon)
      constructor
      · unfold scalingDivisor validJoints
        by_cases h0 : maxOf ((pose.filter fun p => ¬(p.1 = 0 ∧ p.2 = 0)).map Prod.snd)
            - minOf ((pose.filter fun p => ¬(p.1 = 0 ∧ p.2 = 0)).map Prod.snd) = 0
        · simp only [h0, if_pos]
          norm_num
        · have hle : minOf ((pose.filter fun p => ¬(p.1 = 0 ∧ p.2 = 0)).map Prod.snd)
              ≤ maxOf ((pose.filter fun p => ¬(p.1 = 0 ∧ p.2 = 0)).map Prod.snd) :=
            minOf_le_maxOf hys
          simp only [if_neg h0]
          cases lt_or_eq_of_le hle with
          | inl hlt => linarith
          | inr heq => exact absurd (by rw [heq]; ring) h0
      · unfold normalize_pose scalingDivisor validJoints
        rw [if_neg hp, if_neg h]

/-- Witness for `normalize_pose_amended` at the pose `[(1, 1), (1, 3/2)]`. -/
theorem normalize_pose_amended_witness :
    validJoints [((1:ℚ), (1:ℚ)), (1, 3/2)] ≠ [] ∧
    (0 < scalingDivisor [((1:ℚ), (1:ℚ)), (1, 3/2)] ∧
     normalize_pose [((1:ℚ), (1:ℚ)), (1, 3/2)]
       = ([((1:ℚ), (1:ℚ)), (1, 3/2)] : Pose).map fun p =>
        ((p.1 - (minOf ((validJoints [((1:ℚ), (1:ℚ)), (1, 3/2)]).map Prod.fst)
               + maxOf ((validJoints [((1:ℚ), (1:ℚ)), (1, 3/2)]).map Prod.fst)) / 2)
            / scalingDivisor [((1:ℚ), (1:ℚ)), (1, 3/2)],
         (p.2 - (minOf ((validJoints [((1:ℚ), (1:ℚ)), (1, 3/2)]).map Prod.snd)
               + maxOf ((validJoints [((1:ℚ), (1:ℚ)), (1, 3/2)]).map Prod.snd)) / 2)
            / scalingDivisor [((1:ℚ), (1:ℚ)), (1, 3/2)])) :=
  ⟨by norm_num [validJoints]; exact List.cons_ne_nil _ _,
   (normalize_pose_amended _).2 (by norm_num [validJoints]; exact List.cons_ne_nil _ _)⟩

/-- C7: `normalize_features` maps a non-empty all-equal amplitude list to
constant `1/2`, min-max normalizes otherwise, and clamps the affine BPM map
`(bpm − 60)/140` to `[0, 1]`, so `40 ↦ 0`, `260 ↦ 1`, `130 ↦ 1/2`. -/
theorem normalize_features_spec (amplitudes bpms : List ℚ) (c : ℚ) :
    (amplitudes ≠ [] → (∀ a ∈ amplitudes, a = c) →
      (normalize_features amplitudes bpms).1 = List.replicate amplitudes.length (1/2)) ∧
    ((∃ a ∈ amplitudes, ∃ b ∈ amplitudes, a ≠ b) →
      (normalize_features amplitudes bpms).1
        = amplitudes.map fun a => (a - minOf amplitudes) / (maxOf amplitudes - minOf amplitudes)) ∧
    ((normalize_features amplitudes bpms).2
        = bpms.map fun b => max 0 (min 1 ((b - 60) / 140))) ∧
    (normalize_features amplitudes [40, 260, 130]).2 = [0, 1, 1/2] := by
  refine ⟨fun hne hall => ?_, fun hdiff => ?_, ?_, ?_⟩
  · have h1 : minOf amplitudes = c := hall _ (minOf_mem hne)
    have h2 : maxOf amplitudes = c := hall _ (maxOf_mem hne)
    have hlt : ¬ (minOf amplitudes < maxOf amplitudes) := by
      rw [h1, h2]; exact lt_irrefl c
    simp [normalize_features, hne, hlt]
  · obtain ⟨a, ha, b, hb, hab⟩ := hdiff
    have hne : amplitudes ≠ [] := List.ne_nil_of_mem ha
    have hlt : minOf amplitudes < maxOf amplitudes := by
      rcases lt_or_gt_of_ne hab with hl | hl
      · exact lt_of_le_of_lt (minOf_le_of_mem ha)
          (lt_of_lt_of_le hl (le_maxOf_of_mem hb))
      · exact lt_of_le_of_lt (minOf_le_of_mem hb)
          (lt_of_lt_of_le hl (le_maxOf_of_mem ha))
    simp [normalize_features, hne, hlt]
  · have h140 : (200 : ℚ) - 60 = 140 := by norm_num
    simp [normalize_features, h140]
  · norm_num [normalize_features]

/-- Witness for `normalize_features_spec`: the constant amplitude list
`[5, 5, 5]` normalizes to `[1/2, 1/2, 1/2]` and the BPM list
`[40, 260, 130]` to `[0, 1, 1/2]`. -/
theorem normalize_features_spec_witness :
    ([5, 5, 5] : List ℚ) ≠ [] ∧
    (normalize_features [5, 5, 5] [40, 260, 130]).1 = List.replicate 3 (1/2) ∧
    (normalize_features [5, 5, 5] [40, 260, 130]).2 = [0, 1, 1/2] := by
  refine ⟨by simp, ?_, (normalize_features_spec [5, 5, 5] [40, 260, 130] 5).2.2.2⟩
  have := (normalize_features_spec [5, 5, 5] [40, 260, 130] 5).1 (by simp) (by simp)
  simpa using this

theorem pushBounded_getLast? {α : Type} {cap : ℕ} (hcap : 1 ≤ cap)
    (l : List α) (x : α) : (pushBounded cap l x).getLast? = some x := by
  unfold pushBounded
  have hlen : (l ++ [x]).length - cap ≤ l.length := by
    simp only [List.length_append, List.length_singleton]
    omega
  rw [List.drop_append_of_le_length hlen, List.getLast?_concat]

/-! ### Claims C8 and C9 -/

/-- C8: with a non-empty loaded reference, a recorded session start `s`, and
a positive reference duration `D` (the last reference timestamp), the matched
reference index equals
`clamp(floor(((t − s) mod D)/D · refPoseCount), 0, refPoseCount − 1)`, and
shifting the timestamp by exactly `D` leaves the index unchanged. -/
theorem find_best_reference_match_index (distFn : Pose → Pose → ℚ)
    (st : RealTimePoseScorer.ScorerState) (up : Pose) (t s D : ℚ)
    (hne : st.reference_poses ≠ [])
    (hstart : st.start_time = some s)
    (hD : st.reference_timestamps.getLast? = some D)
    (hDpos : 0 < D) :
    ((RealTimePoseScorer.find_best_reference_match distFn st up t).1.1 =
      max 0 (min ⌊pymod (t - s) D / D * (st.reference_poses.length : ℚ)⌋
        ((st.reference_poses.length : ℤ) - 1))) ∧
    ((RealTimePoseScorer.find_best_reference_match distFn st up (t + D)).1.1 =
      (RealTimePoseScorer.find_best_reference_match distFn st up t).1.1) := by
  have hn : 0 < st.reference_poses.length := List.length_pos.mpr hne
  have key : ∀ u : ℚ,
      (RealTimePoseScorer.find_best_reference_match distFn st up u).1.1 =
        min ⌊pymod (u - s) D / D * (st.reference_poses.length : ℚ)⌋
          ((st.reference_poses.length : ℤ) - 1) := by
    intro u
    unfold RealTimePoseScorer.find_best_reference_match
    rw [if_neg hne]
    simp only [hstart, Option.getD_some, hD]
    have hprog : 0 ≤ pymod (u - s) D / D * (st.reference_poses.length : ℚ) := by
      apply mul_nonneg
      · exact div_nonneg (pymod_nonneg hDpos) (le_of_lt hDpos)
      · exact_mod_cast Nat.zero_le _
    rw [pytrunc_of_nonneg hprog]
  have hfloor_nonneg : (0 : ℤ) ≤ ⌊pymod (t - s) D / D * (st.reference_poses.length : ℚ)⌋ := by
    apply Int.floor_nonneg.mpr
    apply mul_nonneg
    · exact div_nonneg (pymod_nonneg hDpos) (le_of_lt hDpos)
    · exact_mod_cast Nat.zero_le _
  constructor
  · rw [key t]
    have hmin_nonneg : (0 : ℤ) ≤
        min ⌊pymod (t - s) D / D * (st.reference_poses.length : ℚ)⌋
          ((st.reference_poses.length : ℤ) - 1) := by
      apply le_min hfloor_nonneg
      omega
    exact (max_eq_right hmin_nonneg).symm
  · rw [key t, key (t + D)]
    have harg : t + D - s = (t - s) + D := by ring
    rw [harg, pymod_add_self (ne_of_gt hDpos)]

/-- Witness for `find_best_reference_match_index`: 4 reference poses with
timestamps `[0, 1, 2]` (duration 2), session start 10; timestamps `10.5`
and `12.5` both map to index 1. -/
theorem find_best_reference_match_index_witness :
    let st : RealTimePoseScorer.ScorerState :=
      { user_poses := []
        user_timestamps := []
        reference_poses := [[], [], [], []]
        reference_timestamps := [0, 1, 2]
        pose_scores := []
        pose_history := []
        start_time := some 10
        current_ref_index := 0 }
    st.reference_poses ≠ [] ∧ st.start_time = some 10 ∧
    st.reference_timestamps.getLast? = some 2 ∧ (0 : ℚ) < 2 ∧
    ((RealTimePoseScorer.find_best_reference_match (fun _ _ => 0) st [] (21/2)).1.1 =
      max 0 (min ⌊pymod ((21:ℚ)/2 - 10) 2 / 2 * ((4:ℕ) : ℚ)⌋ (((4:ℕ) : ℤ) - 1))) ∧
    ((RealTimePoseScorer.find_best_reference_match (fun _ _ => 0) st [] (21/2 + 2)).1.1 =
      (RealTimePoseScorer.find_best_reference_match (fun _ _ => 0) st [] (21/2)).1.1) := by
  intro st
  refine ⟨List.cons_ne_nil _ _, rfl, rfl, by norm_num, ?_⟩
  exact find_best_reference_match_index (fun _ _ => 0) st [] (21/2) 10 2
    (List.cons_ne_nil _ _) rfl rfl (by norm_num)

/-- C9: scoring a pose against a session whose reference sequence is empty
yields a sample with `spatial_score = 0` and `frame_score = 0` (the match
distance is `inf` and `clip(exp(−alpha·inf), 0, 1) = 0` for `alpha > 0`),
and the sample is still appended to the score history. -/
theorem score_pose_empty_reference (cfg : RealTimePoseScorer.Cfg)
    (distFn : Pose → Pose → ℚ) (expFn : ℚ → ℚ)
    (timingFn : List ℚ → ℚ) (rhythmFn : List Pose → List Pose → ℚ)
    (st : RealTimePoseScorer.ScorerState) (up : Pose) (t : ℚ)
    (href : st.reference_poses = [])
    (halpha : 0 < cfg.alpha)
    (hcap : 1 ≤ cfg.max_history) :
    (RealTimePoseScorer.score_pose cfg distFn expFn timingFn rhythmFn st up t).1.spatial_score = 0 ∧
    (RealTimePoseScorer.score_pose cfg distFn expFn timingFn rhythmFn st up t).1.frame_score = 0 ∧
    (RealTimePoseScorer.score_pose cfg distFn expFn timingFn rhythmFn st up t).2.pose_scores.getLast?
      = some (RealTimePoseScorer.score_pose cfg distFn expFn timingFn rhythmFn st up t).1 := by
  unfold RealTimePoseScorer.score_pose
  simp only [RealTimePoseScorer.find_best_reference_match, href, if_pos]
  exact ⟨rfl, rfl, pushBounded_getLast? hcap _ _⟩

/-- Witness for `score_pose_empty_reference`: a fresh default session
(`reference_poses = []`, `alpha = 2`, `max_history = 100`) scoring a
one-joint pose at time 0. -/
theorem score_pose_empty_reference_witness :
    RealTimePoseScorer.initState.reference_poses = [] ∧
    (0 : ℚ) < 2 ∧ (1 : ℕ) ≤ 100 ∧
    ((RealTimePoseScorer.score_pose (RealTimePoseScorer.init (2/5) (3/10) (3/10) 2 (3/10) 100)
        (fun _ _ => 0) (fun _ => 1) (fun _ => 1/2) (fun _ _ => 1/2)
        RealTimePoseScorer.initState [(1, 1)] 0).1.spatial_score = 0 ∧
     (RealTimePoseScorer.score_pose (RealTimePoseScorer.init (2/5) (3/10) (3/10) 2 (3/10) 100)
        (fun _ _ => 0) (fun _ => 1) (fun _ => 1/2) (fun _ _ => 1/2)
        RealTimePoseScorer.initState [(1, 1)] 0).1.frame_score = 0 ∧
     (RealTimePoseScorer.score_pose (RealTimePoseScorer.init (2/5) (3/10) (3/10) 2 (3/10) 100)
        (fun _ _ => 0) (fun _ => 1) (fun _ => 1/2) (fun _ _ => 1/2)
        RealTimePoseScorer.initState [(1, 1)] 0).2.pose_scores.getLast?
       = some (RealTimePoseScorer.score_pose (RealTimePoseScorer.init (2/5) (3/10) (3/10) 2 (3/10) 100)
        (fun _ _ => 0) (fun _ => 1) (fun _ => 1/2) (fun _ _ => 1/2)
        RealTimePoseScorer.initState [(1, 1)] 0).1) :=
  ⟨rfl, by norm_num, by norm_num,
   score_pose_empty_reference (RealTimePoseScorer.init (2/5) (3/10) (3/10) 2 (3/10) 100)
     (fun _ _ => 0) (fun _ => 1) (fun _ => 1/2) (fun _ _ => 1/2)
     RealTimePoseScorer.initState [(1, 1)] 0 rfl
     (by norm_num [RealTimePoseScorer.init]) (by norm_num [RealTimePoseScorer.init])⟩

/-! ### Claims C2, C3, C4 -/

/-- C2, counterexample: with a catalog where every quality check fails, all
10 attempts pick clip 0 (the 10th attempt's candidate is clip 0), yet the
code's fallback makes a fresh draw from the pool and selects clip 1 — not
the last-picked candidate. -/
theorem select_fallback_counterexample :
    pickByIntensity exCatalogC2 DanceIntensity.high (exRngC2.drop 18) = some (0, [0, 1]) ∧
    selectNewDance exStoreC2 exCatalogC2 DanceIntensity.high exRngC2 = some (1, []) ∧
    (0 : ClipId) ≠ 1 := by
  refine ⟨?_, ?_, by norm_num⟩ <;> rfl

/-- C2, amended: when all 10 attempts fail the quality filter, the sequencer
makes one additional **fresh** random selection from the intensity pool
(falling back to the full catalog), with no quality check; this pick is a
new draw and need not equal the candidate of the final attempt.  The other
branches: an accepted candidate is returned as-is, and an aborted draw
(empty pool) aborts the selection. -/
theorem selectNewDance_cases (store : ClipStore) (cat : Catalog)
    (intensity : DanceIntensity) (rng : Rng) :
    (∀ rng', selectLoop store cat intensity 10 rng = some (none, rng') →
      selectNewDance store cat intensity rng = pickByIntensity cat intensity rng') ∧
    (∀ d rng', selectLoop store cat intensity 10 rng = some (some d, rng') →
      selectNewDance store cat intensity rng = some (d, rng')) ∧
    (selectLoop store cat intensity 10 rng = none →
      selectNewDance store cat intensity rng = none) := by
  refine ⟨fun rng' h => ?_, fun d rng' h => ?_, fun h => ?_⟩ <;>
    · unfold selectNewDance
      rw [h]

/-- Witness for `selectNewDance_cases` on the C2 fixture: the loop rejects
all 10 attempts and the result is the fresh fallback pick. -/
theorem selectNewDance_cases_witness :
    selectLoop exStoreC2 exCatalogC2 DanceIntensity.high 10 exRngC2 = some (none, [1]) ∧
    selectNewDance exStoreC2 exCatalogC2 DanceIntensity.high exRngC2
      = pickByIntensity exCatalogC2 DanceIntensity.high [1] :=
  ⟨rfl, (selectNewDance_cases exStoreC2 exCatalogC2 DanceIntensity.high exRngC2).1 [1] rfl⟩

/-- C3, counterexample: when the active clip's data fails to load for a
frame (the store yields `None`), the emitted `dance_frame` is the raw,
un-wrapped index — here 5, outside `[0, 3)` for an active clip of
3 frames — and the pose degrades to `None`. -/
theorem clipFrameIndex_unwrapped_counterexample :
    (framePoseAndIndex none 5).1 = 5 ∧
    (framePoseAndIndex none 5).2 = none ∧
    ¬ ((framePoseAndIndex none 5).1 < 3) :=
  ⟨rfl, rfl, by norm_num [framePoseAndIndex]⟩

/-- `resolvePose` always produces a pose (clip frame, nearby clean frame, or
the synthesized default). -/
theorem resolvePose_ne_none (frames : List KFrame) (df : ℕ) :
    resolvePose frames df ≠ none := by
  unfold resolvePose
  by_cases h : frameHasNaN (frames.getD df []) = true
  · rw [if_pos h]
    cases searchClean frames df <;> simp
  · rw [if_neg h]
    simp

/-- C3, amended: whenever the active clip's frame data loads successfully
with a positive frame count, the emitted `clipFrameIndex` is the raw index
`int(elapsed·frameRate) + frameOffsetWithinSegment` wrapped modulo the frame
count, hence lies in `[0, frameCount)`, and the frame carries a pose; when
the load fails the raw index is emitted un-wrapped with a `None` pose. -/
theorem clipFrameIndex_in_range (frames : List KFrame) (elapsed rate : ℚ) (idx : ℕ)
    (hne : frames ≠ []) :
    (framePoseAndIndex (some frames) (rawFrameIndex elapsed rate idx)).1
      = rawFrameIndex elapsed rate idx % frames.length ∧
    (framePoseAndIndex (some frames) (rawFrameIndex elapsed rate idx)).1 < frames.length ∧
    (framePoseAndIndex (some frames) (rawFrameIndex elapsed rate idx)).2 ≠ none := by
  have hpos : 0 < frames.length := List.length_pos.mpr hne
  simp only [framePoseAndIndex]
  rw [if_pos hpos]
  exact ⟨rfl, Nat.mod_lt _ hpos, resolvePose_ne_none frames _⟩

/-- Witness for `clipFrameIndex_in_range`: a one-frame clip at elapsed time
`1/2`, frame rate 30, segment offset 2 (raw index 17) wraps to index 0. -/
theorem clipFrameIndex_in_range_witness :
    ([[(some 1, some 1, some 1)]] : List KFrame) ≠ [] ∧
    ((framePoseAndIndex (some [[(some 1, some 1, some 1)]])
        (rawFrameIndex (1/2) 30 2)).1
      = rawFrameIndex (1/2) 30 2 % 1 ∧
     (framePoseAndIndex (some [[(some 1, some 1, some 1)]])
        (rawFrameIndex (1/2) 30 2)).1 < 1 ∧
     (framePoseAndIndex (some [[(some 1, some 1, some 1)]])
        (rawFrameIndex (1/2) 30 2)).2 ≠ none) :=
  ⟨List.cons_ne_nil _ _, by
    have h := clipFrameIndex_in_range [[(some 1, some 1, some 1)]] (1/2) 30 2
      (List.cons_ne_nil _ _)
    simpa using h⟩

/-- C4, counterexample: 101 frames, all NaN except frame 50.  From wrapped
index 0 the code's search (`range(1, min(50, 101))`, i.e. offsets 1…49)
finds nothing and synthesizes the default pose, while the claimed inclusive
search through offset `min(50, frameCount) = 50` would find frame 50. -/
theorem search_bound_counterexample :
    searchClean exFramesC4 0 = none ∧
    searchCleanInclusive exFramesC4 0 = some [(some 1, some 1, some 1)] ∧
    resolvePose exFramesC4 0 = some defaultPose ∧
    frameHasNaN (exFramesC4.getD 50 []) = false ∧
    exFramesC4.length = 101 := by
  refine ⟨?_, ?_, ?_, ?_, ?_⟩ <;> rfl

/-- C4, amended: on a NaN-tainted frame the search visits exactly the
wrapped indices `d+1, d−1, d+2, d−2, …` for offsets `1` through
`min(50, frameCount) − 1` (the Python `range` excludes its upper bound),
in that order, and uses the first fully valid frame it meets. -/
theorem searchClean_eq_searchOrder (frames : List KFrame) (d : ℕ) :
    searchClean frames d = (searchOrder frames.length d).findSome? fun i =>
      if frameHasNaN (frames.getD i []) then none else some (frames.getD i []) := by
  unfold searchClean searchOrder
  generalize List.range' 1 (min 50 frames.length - 1) = l
  induction l with
  | nil => rfl
  | cons a l ih =>
    rw [List.findSome?_cons, List.flatMap_cons, List.findSome?_append, ← ih]
    have e1 : (d : ℤ) + (a : ℤ) * 1 = (d : ℤ) + (a : ℤ) := by ring
    have e2 : (d : ℤ) + (a : ℤ) * (-1) = (d : ℤ) - (a : ℤ) := by ring
    simp only [List.findSome?_cons, List.findSome?_nil, e1, e2]
    cases h1 : frameHasNaN (frames.getD (((d : ℤ) + (a : ℤ)).emod frames.length).toNat []) <;>
      cases h2 : frameHasNaN (frames.getD (((d : ℤ) - (a : ℤ)).emod frames.length).toNat []) <;>
        simp [h1, h2, Option.or]

/-! ### Claim C10 -/

/-- The frames a segment emits carry consecutive frame numbers starting at
the incoming state's counter, times confined to
`[start + delay, end + delay)`, and non-decreasing times. -/
theorem segmentFrames_spec (store : ClipStore) (frame_rate frame_delay : ℚ)
    (st : SeqState) (intensity : DanceIntensity) (start_time end_time : ℚ)
    (hrate : 0 < frame_rate) (hse : start_time ≤ end_time) :
    (segmentFrames store frame_rate frame_delay st intensity start_time end_time).map
        (fun f => f.frame_number)
      = List.range' st.frame_number
          (segmentFrames store frame_rate frame_delay st intensity start_time end_time).length ∧
    (∀ f ∈ segmentFrames store frame_rate frame_delay st intensity start_time end_time,
      start_time + effectiveDelay frame_delay ≤ f.time ∧
      f.time < end_time + effectiveDelay frame_delay) ∧
    (segmentFrames store frame_rate frame_delay st intensity start_time end_time).Pairwise
      (fun a b => a.time ≤ b.time) := by
  simp only [segmentFrames]
  set total := (pytrunc ((end_time - start_time) * frame_rate)).toNat with htotal
  have hq : (0:ℚ) ≤ (end_time - start_time) * frame_rate :=
    mul_nonneg (by linarith) (le_of_lt hrate)
  have htotq : ((total : ℕ) : ℚ) ≤ (end_time - start_time) * frame_rate := by
    rw [htotal, pytrunc_of_nonneg hq]
    have h1 : ((⌊(end_time - start_time) * frame_rate⌋.toNat : ℤ) : ℚ)
        ≤ (end_time - start_time) * frame_rate := by
      rw [Int.toNat_of_nonneg (Int.floor_nonneg.mpr hq)]
      exact Int.floor_le _
    exact_mod_cast h1
  refine ⟨?_, ?_, ?_⟩
  · rw [List.map_map, List.length_map, List.length_range, List.range'_eq_map_range]
    rfl
  · intro f hf
    obtain ⟨i, hi, rfl⟩ := List.mem_map.mp hf
    have hi' : i < total := List.mem_range.mp hi
    have hdiv0 : (0:ℚ) ≤ (i:ℚ) / frame_rate :=
      div_nonneg (Nat.cast_nonneg i) (le_of_lt hrate)
    constructor
    · simp only []
      linarith
    · have hiq : ((i:ℕ):ℚ) < ((total:ℕ):ℚ) := by exact_mod_cast hi'
      have h2 : (i:ℚ) / frame_rate < ((total:ℕ):ℚ) / frame_rate :=
        (div_lt_div_iff_of_pos_right hrate).mpr hiq
      have h3 : ((total:ℕ):ℚ) / frame_rate ≤ end_time - start_time := by
        have := (div_le_div_iff_of_pos_right hrate).mpr htotq
        rwa [mul_div_cancel_right₀ _ (ne_of_gt hrate)] at this
      simp only []
      linarith
  · refine List.Pairwise.map _ (fun i j hij => ?_) (List.pairwise_lt_range total)
    simp only []
    have : (i:ℚ) / frame_rate ≤ (j:ℚ) / frame_rate := by
      refine (div_le_div_iff_of_pos_right hrate).mpr ?_
      exact_mod_cast le_of_lt hij
    linarith

/-- Clip selection never touches the frame counter: any state produced by
the selection step of `processSegment` keeps `frame_number`. -/
theorem processSegment_spec (store : ClipStore) (cat : Catalog) (cfg : SamplerConfig)
    (st : SeqState) (start_time end_time norm_amp norm_bpm : ℚ)
    (hrate : 0 < cfg.frame_rate) (hse : start_time ≤ end_time)
    (res : SeqState × List ChoreographyFrame)
    (h : processSegment store cat cfg st start_time end_time norm_amp norm_bpm = some res) :
    res.2.map (fun f => f.frame_number) = List.range' st.frame_number res.2.length ∧
    res.1.frame_number = st.frame_number + res.2.length ∧
    (∀ f ∈ res.2, start_time + effectiveDelay cfg.frame_delay ≤ f.time ∧
      f.time < end_time + effectiveDelay cfg.frame_delay) ∧
    res.2.Pairwise (fun a b => a.time ≤ b.time) := by
  simp only [processSegment] at h
  split at h
  · simp at h
  · next st' heq =>
    injection h with h
    subst h
    have hfn : st'.frame_number = st.frame_number := by
      split at heq
      · split at heq
        · simp at heq
        · injection heq with heq
          rw [← heq]
      · injection heq with heq
        rw [← heq]
    obtain ⟨hmap, hbounds, hpw⟩ := segmentFrames_spec store cfg.frame_rate cfg.frame_delay
      st' _ start_time end_time hrate hse
    refine ⟨?_, ?_, hbounds, hpw⟩
    · rw [hmap, hfn]
    · simp only []
      rw [hfn]

/-- Invariant of the segment loop: with segments that start no earlier than
`lo`, each spanning a non-negative window, and pairwise ordered (each ends
no later than the next starts), a successful run emits frames with
consecutive numbers from the incoming counter and non-decreasing times, all
at or after `lo + delay`. -/
theorem runSegments_spec (store : ClipStore) (cat : Catalog) (cfg : SamplerConfig)
    (hrate : 0 < cfg.frame_rate) :
    ∀ (ss : List ((ℚ × ℚ × ℚ × ℚ) × ℚ × ℚ)) (st : SeqState) (lo : ℚ),
    (∀ s ∈ ss, lo ≤ s.1.1) → (∀ s ∈ ss, s.1.1 ≤ s.1.2.1) →
    ss.Pairwise (fun a b => a.1.2.1 ≤ b.1.1) →
    ∀ res, runSegments store cat cfg st ss = some res →
    res.2.map (fun f => f.frame_number) = List.range' st.frame_number res.2.length ∧
    res.1.frame_number = st.frame_number + res.2.length ∧
    (∀ f ∈ res.2, lo + effectiveDelay cfg.frame_delay ≤ f.time) ∧
    res.2.Pairwise (fun a b => a.time ≤ b.time) := by
  intro ss
  induction ss with
  | nil =>
    intro st lo _ _ _ res h
    simp only [runSegments] at h
    injection h with h
    subst h
    simp
  | cons seg rest ih =>
    intro st lo hlo hse hpw res h
    simp only [runSegments] at h
    split at h
    · simp at h
    · next st' fs hps =>
      split at h
      · simp at h
      · next st'' fs' hrs =>
        injection h with h
        subst h
        have hseg_se : seg.1.1 ≤ seg.1.2.1 := hse seg (List.mem_cons_self _ _)
        have hseg_lo : lo ≤ seg.1.1 := hlo seg (List.mem_cons_self _ _)
        obtain ⟨hrest_head, hpw_rest⟩ := List.pairwise_cons.mp hpw
        obtain ⟨hm1, hfn1, hb1, hp1⟩ := processSegment_spec store cat cfg st
          seg.1.1 seg.1.2.1 seg.2.1 seg.2.2 hrate hseg_se (st', fs) hps
        obtain ⟨hm2, hfn2, hb2, hp2⟩ := ih st' seg.1.2.1
          (fun s hs => hrest_head s hs)
          (fun s hs => hse s (List.mem_cons_of_mem _ hs))
          hpw_rest (st'', fs') hrs
        simp only [] at hm1 hfn1 hb1 hp1 hm2 hfn2 hb2 hp2
        refine ⟨?_, ?_, ?_, ?_⟩
        · simp only [List.map_append, List.length_append]
          rw [hm1, hm2, hfn1, Nat.add_comm fs.length fs'.length,
            ← List.range'_append_1 st.frame_number fs.length fs'.length]
        · simp only [List.length_append]
          rw [hfn2, hfn1, Nat.add_assoc]
        · intro f hf
          rcases List.mem_append.mp hf with hf | hf
          · have := (hb1 f hf).1
            linarith
          · have := hb2 f hf
            linarith
        · refine List.pairwise_append.mpr ⟨hp1, hp2, fun a ha b hb => ?_⟩
          have h1 := (hb1 a ha).2
          have h2 := hb2 b hb
          linarith

/-- C10: in every sequence produced by `sample_dance_moves_for_song`, the
`frame_number` of the `i`-th record equals `i`, and the `time` field is
non-decreasing across the whole sequence, for any positive frame rate and
non-negative frame delay. -/
theorem sample_frame_numbers_consecutive_times_monotone
    (store : ClipStore) (intensity_mappings : List DanceIntensity)
    (available_dances : List ClipId) (ampFn bpmFn : ℚ → ℚ → ℚ)
    (cfg : SamplerConfig) (song_duration : ℚ) (rng : Rng)
    (hrate : 0 < cfg.frame_rate) (hdelay : 0 ≤ cfg.frame_delay) :
    (∀ i (hi : i < (sample_dance_moves_for_song store intensity_mappings available_dances
        ampFn bpmFn cfg song_duration rng).length),
      (sample_dance_moves_for_song store intensity_mappings available_dances
        ampFn bpmFn cfg song_duration rng)[i].frame_number = i) ∧
    (sample_dance_moves_for_song store intensity_mappings available_dances
      ampFn bpmFn cfg song_duration rng).Pairwise (fun a b => a.time ≤ b.time) := by
  suffices hgen : ∀ out : List ChoreographyFrame,
      sample_dance_moves_for_song store intensity_mappings available_dances
        ampFn bpmFn cfg song_duration rng = out →
      (∀ i (hi : i < out.length), out[i].frame_number = i) ∧
      out.Pairwise (fun a b => a.time ≤ b.time) by
    exact hgen _ rfl
  intro out hout
  simp only [sample_dance_moves_for_song] at hout
  split at hout
  · subst hout
    exact ⟨fun i hi => absurd hi (by simp), List.Pairwise.nil⟩
  · split at hout
    · subst hout
      exact ⟨fun i hi => absurd hi (by simp), List.Pairwise.nil⟩
    · next res hrun =>
      subst hout
      obtain ⟨hmap, _, _, hpw⟩ := runSegments_spec store _ cfg hrate _
        (initialSeqState rng) 0
        (by
          intro s hs
          obtain ⟨i, hi, rfl⟩ := List.mem_map.mp hs
          show (0:ℚ) ≤ segStart i
          simp only [segStart]
          positivity)
        (by
          intro s hs
          obtain ⟨i, hi, rfl⟩ := List.mem_map.mp hs
          show segStart i ≤ segEnd song_duration i
          have hin : i < numSegments song_duration := List.mem_range.mp hi
          have h1 : ((i:ℤ)) < ⌈song_duration / 5⌉ := Int.lt_toNat.mp hin
          have h2 : ((i:ℚ)) < song_duration / 5 := Int.lt_ceil.mp h1
          have h3 : 5 * (i:ℚ) < song_duration := by
            have := (lt_div_iff₀ (by norm_num : (0:ℚ) < 5)).mp h2
            linarith
          refine le_min (by simp only [segStart]; linarith) (le_of_lt ?_)
          simpa [segStart] using h3)
        (by
          refine List.Pairwise.map _ (fun i j hij => ?_) (List.pairwise_lt_range _)
          show segEnd song_duration i ≤ segStart j
          refine le_trans (min_le_left _ _) ?_
          have : (i:ℚ) + 1 ≤ (j:ℚ) := by exact_mod_cast hij
          simp only [segStart]
          linarith)
        res hrun
      simp only [initialSeqState] at hmap
      refine ⟨fun i hi => ?_, hpw⟩
      have h2 : (res.2.map (fun f => f.frame_number)).get ⟨i, by simpa using hi⟩
          = (List.range' 0 res.2.length).get
              ⟨i, by simpa [List.length_range'] using hi⟩ :=
        List.get_of_eq hmap _
      simp only [List.get_eq_getElem, List.getElem_map, List.getElem_range'_1] at h2
      simpa using h2

/-- Witness for `sample_frame_numbers_consecutive_times_monotone` on a
concrete one-clip catalog and a 7-second song. -/
theorem sample_frame_numbers_consecutive_times_monotone_witness :
    (0:ℚ) < exCfgC10.frame_rate ∧ (0:ℚ) ≤ exCfgC10.frame_delay ∧
    ((∀ i (hi : i < (sample_dance_moves_for_song (fun _ => some [[(some 1, some 1, some 1)]])
        [DanceIntensity.medium] [0] (fun _ _ => 1) (fun _ _ => 120) exCfgC10 7
        (List.replicate 30 0)).length),
      (sample_dance_moves_for_song (fun _ => some [[(some 1, some 1, some 1)]])
        [DanceIntensity.medium] [0] (fun _ _ => 1) (fun _ _ => 120) exCfgC10 7
        (List.replicate 30 0))[i].frame_number = i) ∧
     (sample_dance_moves_for_song (fun _ => some [[(some 1, some 1, some 1)]])
        [DanceIntensity.medium] [0] (fun _ _ => 1) (fun _ _ => 120) exCfgC10 7
        (List.replicate 30 0)).Pairwise (fun a b => a.time ≤ b.time)) :=
  ⟨by norm_num [exCfgC10], by norm_num [exCfgC10],
   sample_frame_numbers_consecutive_times_monotone (fun _ => some [[(some 1, some 1, some 1)]])
     [DanceIntensity.medium] [0] (fun _ _ => 1) (fun _ _ => 120) exCfgC10 7
     (List.replicate 30 0) (by norm_num [exCfgC10]) (by norm_num [exCfgC10])⟩
